import Mathlib

/-!
Verification development for the cookie-compliance scanner backend.

The backend (two server variants, here called `server1` and `server2` after
the two source files they live in) crawls a site with a headless browser
through a pre-consent / post-rejection / post-acceptance sequence, merges the
cookies, network requests and storage items observed across pages and consent
states into canonical records, sends the records to a text-generation oracle
for categorisation in bounded batches, and assembles a final report with
party, expiry and compliance fields.

This file shallow-embeds the pure data-handling parts of that pipeline:
the expiry bucketing, the canonical-record merge, the batch loops of both
server variants, the crawl loop, the per-page data collector and the
party computations, and proves the behavioural properties stated about them.
Machine floating-point arithmetic is modelled with exact rationals and
JavaScript `Set`/`Map` values with `Finset`s and functional maps.
-/

namespace CookieScan

/-- A cookie as delivered by the browser automation layer: the fields of the
puppeteer `Cookie` object that the backend reads.  `expires` is a Unix
timestamp in seconds, `-1` for session cookies. -/
structure PCookie where
  name : String
  domain : String
  path : String
  expires : ℚ
  session : Bool
  httpOnly : Bool
  secure : Bool
deriving DecidableEq, Repr

/-- JavaScript `Math.round`: round half toward positive infinity. -/
def jsRound (q : ℚ) : ℤ := ⌊q + 1 / 2⌋

/-- Render a nonnegative number of tenths the way JavaScript prints
`parseFloat(x.toFixed(1))`: an integer when the tenths digit is zero,
otherwise one decimal place.  The years branch of the expiry bucketing is
the only caller and its guard makes the argument at least `10`. -/
def renderTenths (t : ℤ) : String :=
  let n := t.toNat
  if n % 10 = 0 then toString (n / 10)
  else toString (n / 10) ++ "." ++ toString (n % 10)

/-- The difference, in seconds, between a cookie's expiry instant and the
current time (`nowMs` in milliseconds), as computed in
`getHumanReadableExpiry`: `(new Date(expires*1000) - now) / 1000`. -/
def diffSecondsOf (c : PCookie) (nowMs : ℚ) : ℚ :=
  (c.expires * 1000 - nowMs) / 1000

/-- Embedding of `getHumanReadableExpiry` (identical in both server
variants): bucket a cookie's expiry into Session / Expired / minutes /
hours / days / months / fractional years. -/
def getHumanReadableExpiry (c : PCookie) (nowMs : ℚ) : String :=
  if c.session = true ∨ c.expires = -1 then "Session"
  else
    let diffSeconds := diffSecondsOf c nowMs
    if diffSeconds < 0 then "Expired"
    else if diffSeconds < 3600 then
      toString (jsRound (diffSeconds / 60)) ++ " minutes"
    else if diffSeconds < 86400 then
      toString (jsRound (diffSeconds / 3600)) ++ " hours"
    else if diffSeconds < 86400 * 30 then
      toString (jsRound (diffSeconds / 86400)) ++ " days"
    else if diffSeconds < 86400 * 365 then
      toString (jsRound (diffSeconds / (86400 * 30))) ++ " months"
    else
      let t := jsRound (10 * (diffSeconds / (86400 * 365)))
      renderTenths t ++ " year" ++ (if 10 < t then "s" else "")

/-- An off-site network request as recorded by server2's request listener:
the absolute URL together with its parsed hostname. -/
structure NetRequest where
  hostname : String
  url : String
deriving DecidableEq, Repr

/-- An item handed to server2's `processItems`: either a cookie
(`isCookie = true` call sites) or a network request. -/
inductive ScanItem where
  | cookie (c : PCookie)
  | request (r : NetRequest)
deriving DecidableEq, Repr

/-- The natural key server2's `processItems` computes for an item:
`name|domain|path` for a cookie, the request URL otherwise. -/
def itemKey : ScanItem → String
  | .cookie c => c.name ++ "|" ++ c.domain ++ "|" ++ c.path
  | .request r => r.url

/-- A canonical record held in `allCookieMap` / `allNetworkRequestMap`:
the consent states and pages it was seen in (JavaScript `Set`s) and the
payload of the first observation (`data`). -/
structure MergedRec where
  states : Finset String
  data : ScanItem
  pageUrls : Finset String
deriving DecidableEq

/-- The canonical-record map, keyed by the natural key. -/
def CanonMap : Type := String → Option MergedRec

/-- One upsert of server2's `processItems` body: create the record with the
observation's payload when the key is absent, then add the consent state and
the page URL to the record's sets. -/
def processItem (m : CanonMap) (item : ScanItem) (state pageUrl : String) :
    CanonMap :=
  let key := itemKey item
  let rec0 := (m key).getD ⟨∅, item, ∅⟩
  fun k =>
    if k = key then
      some { rec0 with
              states := insert state rec0.states
              pageUrls := insert pageUrl rec0.pageUrls }
    else m k

/-- One call of server2's `processItems(map, items, state, isCookie, pageUrl)`:
upsert every item of the batch. -/
def processItems (m : CanonMap) (items : List ScanItem)
    (state pageUrl : String) : CanonMap :=
  items.foldl (fun acc it => processItem acc it state pageUrl) m

/-- One merge call of a crawl: a list of observed items tagged with the
consent state and the page they were observed on. -/
structure MergeCall where
  items : List ScanItem
  state : String
  pageUrl : String

/-- A whole crawl's sequence of `processItems` calls. -/
def runMerges (m : CanonMap) (calls : List MergeCall) : CanonMap :=
  calls.foldl (fun acc c => processItems acc c.items c.state c.pageUrl) m

lemma processItem_preserves (m : CanonMap) (it : ScanItem) (s p k : String)
    (r : MergedRec) (h : m k = some r) :
    ∃ r', processItem m it s p k = some r' ∧ r.states ⊆ r'.states ∧
      r'.data = r.data ∧ r.pageUrls ⊆ r'.pageUrls := by
  by_cases hk : k = itemKey it
  · subst hk
    exact ⟨{ states := insert s r.states, data := r.data,
             pageUrls := insert p r.pageUrls },
           by simp [processItem, h],
           Finset.subset_insert _ _, rfl, Finset.subset_insert _ _⟩
  · exact ⟨r, by simpa [processItem, hk] using h,
           Finset.Subset.refl _, rfl, Finset.Subset.refl _⟩

lemma processItems_preserves (items : List ScanItem) (m : CanonMap)
    (s p k : String) (r : MergedRec) (h : m k = some r) :
    ∃ r', processItems m items s p k = some r' ∧ r.states ⊆ r'.states ∧
      r'.data = r.data ∧ r.pageUrls ⊆ r'.pageUrls := by
  induction items generalizing m r with
  | nil => exact ⟨r, h, Finset.Subset.refl _, rfl, Finset.Subset.refl _⟩
  | cons it its ih =>
    obtain ⟨r1, h1, hs1, hd1, hp1⟩ := processItem_preserves m it s p k r h
    obtain ⟨r2, h2, hs2, hd2, hp2⟩ := ih (processItem m it s p) r1 h1
    exact ⟨r2, h2, hs1.trans hs2, by rw [hd2, hd1], hp1.trans hp2⟩

/-- C2: Merge idempotence.  For every canonical-record map, observation item,
consent state and page URL, merging the same (key, state, page) combination
twice via `processItem` yields a map identical to merging it once: the
record's payload, `states` set and `pageUrls` set are unchanged by the
repeated merge. -/
theorem merge_idempotent (m : CanonMap) (item : ScanItem)
    (state pageUrl : String) :
    processItem (processItem m item state pageUrl) item state pageUrl =
      processItem m item state pageUrl := by
  funext k
  by_cases hk : k = itemKey item
  · subst hk
    simp [processItem]
  · simp [processItem, hk]

/-- C3: Merge invariant.  Across any sequence of `processItems` calls, a
record's `states` set and `pageUrls` set only grow, and the payload stored
when its key was first inserted is never overwritten by a later observation
with the same key. -/
theorem merge_monotonic_first_wins (m : CanonMap) (calls : List MergeCall)
    (k : String) (r : MergedRec) (h : m k = some r) :
    ∃ r', runMerges m calls k = some r' ∧ r.states ⊆ r'.states ∧
      r'.data = r.data ∧ r.pageUrls ⊆ r'.pageUrls := by
  induction calls generalizing m r with
  | nil => exact ⟨r, h, Finset.Subset.refl _, rfl, Finset.Subset.refl _⟩
  | cons c cs ih =>
    obtain ⟨r1, h1, hs1, hd1, hp1⟩ :=
      processItems_preserves c.items m c.state c.pageUrl k r h
    obtain ⟨r2, h2, hs2, hd2, hp2⟩ :=
      ih (processItems m c.items c.state c.pageUrl) r1 h1
    exact ⟨r2, h2, hs1.trans hs2, by rw [hd2, hd1], hp1.trans hp2⟩

/-- A concrete cookie used by the witnesses: the `_ga` analytics cookie. -/
def gaCookie : PCookie :=
  { name := "_ga", domain := ".example.com", path := "/",
    expires := 2000000000, session := false, httpOnly := false,
    secure := false }

/-- The canonical map after merging `gaCookie` once, pre-consent, on the
entry page. -/
def gaMap : CanonMap :=
  processItem (fun _ => none) (.cookie gaCookie) "pre-consent"
    "https://www.example.com/"

theorem merge_monotonic_first_wins_witness :
    ∃ r', runMerges gaMap
        [⟨[.cookie gaCookie], "post-rejection", "https://www.example.com/"⟩]
        "_ga|.example.com|/" = some r' ∧
      ({"pre-consent"} : Finset String) ⊆ r'.states ∧
      r'.data = ScanItem.cookie gaCookie ∧
      ({"https://www.example.com/"} : Finset String) ⊆ r'.pageUrls :=
  merge_monotonic_first_wins gaMap _ _
    ⟨{"pre-consent"}, .cookie gaCookie, {"https://www.example.com/"}⟩
    (by decide)

/-- One row of the classifier oracle's JSON response for a batch item, as
required by the response schema in `analyzeBatch`. -/
structure AnalysisRow where
  key : String
  category : String
  purpose : String
  complianceStatus : String
deriving DecidableEq, Repr

/-- JavaScript `a || b` on strings: the empty string is falsy. -/
def jsOrDefault (s d : String) : String := if s = "" then d else s

/-- The compliance-status rules the backend states, verbatim, in the prompt
it sends to the classifier oracle in `analyzeBatch` (both server variants):
Necessary is Compliant; otherwise a state set containing pre-consent is a
Pre-Consent Violation; otherwise one containing post-rejection is a
Post-Rejection Violation; otherwise Compliant.  The rules are listed in
this order, so the pre-consent rule fires first. -/
def resolveComplianceStatus (category : String) (states : List String) :
    String :=
  if category = "Necessary" then "Compliant"
  else if states.contains "pre-consent" then "Pre-Consent Violation"
  else if states.contains "post-rejection" then "Post-Rejection Violation"
  else "Compliant"

/-- The compliance status the report assembler actually stores for a record,
from `finalEnrichedCookies` / `uniqueCookies`:
`analyzed?.complianceStatus || ComplianceStatus.UNKNOWN` over the map of
oracle response rows. -/
def enrichedStatus (analysisMap : String → Option AnalysisRow) (key : String) :
    String :=
  match analysisMap key with
  | some a => jsOrDefault a.complianceStatus "Unknown"
  | none => "Unknown"

/-- The category the report assembler stores:
`analyzed?.category || CookieCategory.UNKNOWN`. -/
def enrichedCategory (analysisMap : String → Option AnalysisRow)
    (key : String) : String :=
  match analysisMap key with
  | some a => jsOrDefault a.category "Unknown"
  | none => "Unknown"

/-- The purpose the report assembler stores:
`analyzed?.purpose || 'No purpose determined.'`. -/
def enrichedPurpose (analysisMap : String → Option AnalysisRow)
    (key : String) : String :=
  match analysisMap key with
  | some a => jsOrDefault a.purpose "No purpose determined."
  | none => "No purpose determined."

/-- An oracle response row in which the oracle ignored the prompt's rules:
it classified the record as Marketing but echoed status Compliant although
the record was observed pre-consent. -/
def disobedientRow : AnalysisRow :=
  { key := "_fbp|.example.com|/", category := "Marketing",
    purpose := "Ad tracking.", complianceStatus := "Compliant" }

/-- An analysis map holding only `disobedientRow`. -/
def disobedientMap : String → Option AnalysisRow := fun k =>
  if k = "_fbp|.example.com|/" then some disobedientRow else none

/-- C1 counterexample: the final compliance status is not computed by the
priority rules from (category, statesObserved) — it is whatever string the
oracle echoed.  For a Marketing record observed pre-consent whose oracle row
says Compliant, the report stores Compliant, while the priority rules give
Pre-Consent Violation. -/
theorem final_status_not_resolver_counterexample :
    enrichedStatus disobedientMap "_fbp|.example.com|/" = "Compliant" ∧
    resolveComplianceStatus "Marketing" ["pre-consent"] =
      "Pre-Consent Violation" ∧
    enrichedStatus disobedientMap "_fbp|.example.com|/" ≠
      resolveComplianceStatus "Marketing" ["pre-consent"] := by
  refine ⟨by decide, by decide, by decide⟩

/-- C1 amended: the final compliance status is copied verbatim from the
classifier oracle's response row (defaulting to Unknown when the row is
missing or the field empty); the rules the prompt instructs the oracle to
apply are exactly the claimed priority rules, and the rule function they
define gives Pre-Consent Violation to a Marketing record seen in both
pre-consent and post-rejection (rule 2 before rule 3) and Compliant to every
Necessary record regardless of states. -/
theorem verdict_rules (states : List String) (category : String)
    (a : AnalysisRow) (am : String → Option AnalysisRow) (k : String)
    (hk : am k = some a) (hne : a.complianceStatus ≠ "") :
    enrichedStatus am k = a.complianceStatus ∧
    resolveComplianceStatus "Marketing" ["pre-consent", "post-rejection"] =
      "Pre-Consent Violation" ∧
    resolveComplianceStatus "Necessary" states = "Compliant" ∧
    (category ≠ "Necessary" → states.contains "pre-consent" = true →
      resolveComplianceStatus category states = "Pre-Consent Violation") := by
  refine ⟨?_, by decide, by simp [resolveComplianceStatus], ?_⟩
  · simp [enrichedStatus, hk, jsOrDefault, hne]
  · intro hc hs
    have hs' : "pre-consent" ∈ states := by simpa using hs
    simp [resolveComplianceStatus, hc, hs']

theorem verdict_rules_witness :
    enrichedStatus disobedientMap "_fbp|.example.com|/" = "Compliant" ∧
    resolveComplianceStatus "Marketing" ["pre-consent", "post-rejection"] =
      "Pre-Consent Violation" ∧
    resolveComplianceStatus "Necessary" ["pre-consent"] = "Compliant" ∧
    ("Marketing" ≠ "Necessary" →
      (["pre-consent"] : List String).contains "pre-consent" = true →
      resolveComplianceStatus "Marketing" ["pre-consent"] =
        "Pre-Consent Violation") :=
  verdict_rules ["pre-consent"] "Marketing" disobedientRow disobedientMap
    "_fbp|.example.com|/" (by decide) (by decide)

/-- Server1's batch loop over `analyzeBatch` calls: each batch is tried in
order; a batch whose `analyzeBatch` call still fails after the bounded
retries (modelled as the oracle returning `none`) is caught, logged and
skipped, and the loop continues with the next batch, accumulating the rows
of the successful batches. -/
def runBatchesServer1 {α : Type} (batches : List (List α))
    (oracle : List α → Option (List AnalysisRow)) : List AnalysisRow :=
  batches.foldl
    (fun acc b =>
      match oracle b with
      | some rows => acc ++ rows
      | none => acc)
    []

/-- Server2's batch loop: `analyzeBatch` is awaited with no surrounding
try/catch, so the first batch whose retries are exhausted throws out of the
whole scan handler (modelled as `Except.error`), discarding every other
batch's results. -/
def runBatchesServer2 {α : Type} (batches : List (List α))
    (oracle : List α → Except String (List AnalysisRow)) :
    Except String (List AnalysisRow) :=
  match batches with
  | [] => .ok []
  | b :: bs =>
    match oracle b with
    | .error e => .error e
    | .ok rows =>
      match runBatchesServer2 bs oracle with
      | .error e => .error e
      | .ok rest => .ok (rows ++ rest)

/-- An oracle for which the first batch fails after all retries while the
second batch would succeed. -/
def flakyOracle : List Nat → Except String (List AnalysisRow) := fun b =>
  if b = [1] then .error "empty response"
  else .ok [⟨"k2", "Analytics", "Traffic measurement.", "Compliant"⟩]

/-- The same oracle seen through server1's catch: a throw becomes `none`. -/
def flakyOracleCaught : List Nat → Option (List AnalysisRow) := fun b =>
  (flakyOracle b).toOption

/-- C4 counterexample: in the server2 variant the batch loop has no
try/catch, so when the first batch's retries are exhausted the whole scan
fails with that error even though the second batch would have succeeded —
the remaining batches are not processed into a best-effort report. -/
theorem batch_failure_aborts_server2_counterexample :
    runBatchesServer2 [[1], [2]] flakyOracle = .error "empty response" ∧
    flakyOracle [2] =
      .ok [⟨"k2", "Analytics", "Traffic measurement.", "Compliant"⟩] :=
  ⟨rfl, rfl⟩

lemma runBatchesServer1_mem_acc {α : Type}
    (oracle : List α → Option (List AnalysisRow)) (row : AnalysisRow) :
    ∀ (batches : List (List α)) (acc : List AnalysisRow), row ∈ acc →
      row ∈ batches.foldl
        (fun acc b =>
          match oracle b with
          | some rows => acc ++ rows
          | none => acc)
        acc := by
  intro batches
  induction batches with
  | nil => intro acc h; exact h
  | cons b0 bs ih =>
    intro acc h
    rcases h0 : oracle b0 with _ | rows0
    · rw [List.foldl_cons, h0]
      exact ih acc h
    · rw [List.foldl_cons, h0]
      exact ih (acc ++ rows0) (List.mem_append_left _ h)

lemma runBatchesServer1_mem_of_ok {α : Type}
    (oracle : List α → Option (List AnalysisRow)) (b : List α)
    (rows : List AnalysisRow) (row : AnalysisRow)
    (hok : oracle b = some rows) (hrow : row ∈ rows) :
    ∀ (batches : List (List α)) (acc : List AnalysisRow), b ∈ batches →
      row ∈ batches.foldl
        (fun acc b =>
          match oracle b with
          | some rows => acc ++ rows
          | none => acc)
        acc := by
  intro batches
  induction batches with
  | nil => intro acc hb; cases hb
  | cons b0 bs ih =>
    intro acc hb
    rcases List.mem_cons.mp hb with hb0 | hbs
    · subst hb0
      rw [List.foldl_cons, hok]
      exact runBatchesServer1_mem_acc oracle row bs (acc ++ rows)
        (List.mem_append_right _ hrow)
    · rcases h0 : oracle b0 with _ | rows0
      · rw [List.foldl_cons, h0]
        exact ih acc hbs
      · rw [List.foldl_cons, h0]
        exact ih (acc ++ rows0) hbs

/-- C4 amended: in the server1 variant the claim holds — a batch whose
classifier call fails after retries is skipped while every successful
batch's rows still reach the aggregated analysis, and a record whose key has
no analysis row surfaces with category Unknown and the neutral purpose
string.  (In the server2 variant a persistent batch failure aborts the whole
scan instead.) -/
theorem batch_failure_contained_server1 {α : Type}
    (batches : List (List α)) (oracle : List α → Option (List AnalysisRow))
    (b : List α) (rows : List AnalysisRow) (row : AnalysisRow)
    (hb : b ∈ batches) (hok : oracle b = some rows) (hrow : row ∈ rows)
    (am : String → Option AnalysisRow) (key : String) (hmiss : am key = none) :
    row ∈ runBatchesServer1 batches oracle ∧
    enrichedCategory am key = "Unknown" ∧
    enrichedStatus am key = "Unknown" ∧
    enrichedPurpose am key = "No purpose determined." :=
  ⟨runBatchesServer1_mem_of_ok oracle b rows row hok hrow batches [] hb,
   by simp [enrichedCategory, hmiss],
   by simp [enrichedStatus, hmiss],
   by simp [enrichedPurpose, hmiss]⟩

theorem batch_failure_contained_server1_witness :
    (⟨"k2", "Analytics", "Traffic measurement.", "Compliant"⟩ : AnalysisRow) ∈
      runBatchesServer1 [[1], [2]] flakyOracleCaught ∧
    enrichedCategory (fun _ => none) "k1" = "Unknown" ∧
    enrichedStatus (fun _ => none) "k1" = "Unknown" ∧
    enrichedPurpose (fun _ => none) "k1" = "No purpose determined." :=
  batch_failure_contained_server1 [[1], [2]] flakyOracleCaught [2]
    [⟨"k2", "Analytics", "Traffic measurement.", "Compliant"⟩]
    ⟨"k2", "Analytics", "Traffic measurement.", "Compliant"⟩
    (by decide) (by decide) (by decide) (fun _ => none) "k1" rfl

/-- Split a character list on the dot character. -/
def splitDot : List Char → List (List Char)
  | [] => [[]]
  | c :: cs =>
    let r := splitDot cs
    if c = '.' then [] :: r
    else
      match r with
      | [] => [[c]]
      | h :: t => (c :: h) :: t

/-- Modelled from the spec: the glossary defines the registrable domain as
the root domain used to decide same-site vs third-party, e.g. `example.com`
for both `www.example.com` and `ads.example.com`.  The crawl code has no
such function — it compares full hostnames — so the spec's notion is
modelled here as the final two dot-separated labels of a hostname. -/
def registrableDomain (host : String) : String :=
  let ls := (splitDot host.data).map String.mk
  String.intercalate "." (ls.drop (ls.length - 2))

/-- The crawl loop's environment: the page budget (`MAX_PAGES_TO_SCAN`),
the entry URL's hostname (`rootUrl.hostname`), URL parsing
(`new URL(u).hostname`, `none` when the constructor throws), and the
behaviour of a `page.goto` visit — `none` when navigation throws, otherwise
the same-site links the page's processing discovers. -/
structure CrawlConfig where
  maxPages : ℕ
  rootHost : String
  parseHost : String → Option String
  navigate : String → Option (List String)

/-- The mutable state of the `/api/scan` crawl loop: the frontier
(`urlsToVisit`), the visited set (`visitedUrls`), plus two histories kept
for specification purposes only — every URL passed to `page.goto`
(`navTrace`) and every URL whose visit succeeded (`succTrace`), in order. -/
structure CrawlState where
  queue : List String
  visited : Finset String
  navTrace : List String
  succTrace : List String

/-- The link-enqueueing step at the end of a successful page visit: each
discovered link is appended to the frontier unless it is already visited or
already queued (`!visitedUrls.has(link) && !urlsToVisit.includes(link)`). -/
def enqueueLinks (visited : Finset String) (queue links : List String) :
    List String :=
  links.foldl (fun q l => if l ∈ visited ∨ l ∈ q then q else q ++ [l]) queue

/-- The body of one crawl-loop iteration once a URL `u` has been dequeued
(`rest` is the remaining frontier): skip when `u` is falsy or already
visited; skip when URL parsing throws; skip when the parsed hostname is not
the root hostname; otherwise navigate — a failed navigation abandons the
URL, a successful one records it as visited and enqueues the discovered
links. -/
def crawlVisit (cfg : CrawlConfig) (s : CrawlState) (u : String)
    (rest : List String) : CrawlState :=
  if u = "" ∨ u ∈ s.visited then { s with queue := rest }
  else
    match cfg.parseHost u with
    | none => { s with queue := rest }
    | some h =>
      if h ≠ cfg.rootHost then { s with queue := rest }
      else
        match cfg.navigate u with
        | none => { s with queue := rest, navTrace := s.navTrace ++ [u] }
        | some links =>
          { queue := enqueueLinks (insert u s.visited) rest links,
            visited := insert u s.visited,
            navTrace := s.navTrace ++ [u],
            succTrace := s.succTrace ++ [u] }

/-- One iteration of the crawl's while loop:
`while (visitedUrls.size < MAX_PAGES_TO_SCAN && urlsToVisit.length > 0)`.
`none` means the loop exits. -/
def crawlStep (cfg : CrawlConfig) (s : CrawlState) : Option CrawlState :=
  if s.visited.card < cfg.maxPages then
    match s.queue with
    | [] => none
    | u :: rest => some (crawlVisit cfg s u rest)
  else none

/-- The crawl's while loop, with a fuel bound on the number of iterations
(the loop itself is bounded in the code by the page budget together with
the finite frontier). -/
def crawlLoop (cfg : CrawlConfig) : ℕ → CrawlState → CrawlState
  | 0, s => s
  | fuel + 1, s =>
    match crawlStep cfg s with
    | none => s
    | some s' => crawlLoop cfg fuel s'

/-- The crawl-loop invariant: the frontier holds no duplicates, no visited
URL sits on the frontier, and the successful-visit history has no
duplicates and is contained in the visited set. -/
def CrawlInv (s : CrawlState) : Prop :=
  s.queue.Nodup ∧ (∀ u ∈ s.visited, u ∉ s.queue) ∧
  s.succTrace.Nodup ∧ (∀ u ∈ s.succTrace, u ∈ s.visited)

/-- Everything one loop iteration (or any number of them) guarantees about
the state it produces, relative to the state it started from. -/
def CrawlRel (cfg : CrawlConfig) (s s' : CrawlState) : Prop :=
  CrawlInv s' ∧ s.visited ⊆ s'.visited ∧
  (∀ u ∈ s'.navTrace, u ∈ s.navTrace ∨
    (u ∉ s.visited ∧ cfg.parseHost u = some cfg.rootHost)) ∧
  (∀ u ∈ s'.visited, u ∈ s.visited ∨ cfg.parseHost u = some cfg.rootHost) ∧
  (∀ u ∈ s'.succTrace, u ∈ s.succTrace ∨ u ∉ s.visited)

lemma crawlRel_refl (cfg : CrawlConfig) (s : CrawlState) (h : CrawlInv s) :
    CrawlRel cfg s s :=
  ⟨h, Finset.Subset.refl _, fun _ hu => Or.inl hu, fun _ hu => Or.inl hu,
   fun _ hu => Or.inl hu⟩

lemma crawlRel_trans (cfg : CrawlConfig) (s1 s2 s3 : CrawlState)
    (h12 : CrawlRel cfg s1 s2) (h23 : CrawlRel cfg s2 s3) :
    CrawlRel cfg s1 s3 := by
  obtain ⟨hi2, hsub12, hnav12, hvis12, hsucc12⟩ := h12
  obtain ⟨hi3, hsub23, hnav23, hvis23, hsucc23⟩ := h23
  refine ⟨hi3, hsub12.trans hsub23, ?_, ?_, ?_⟩
  · intro u hu
    rcases hnav23 u hu with h1 | ⟨h2, h3⟩
    · exact hnav12 u h1
    · exact Or.inr ⟨fun hm => h2 (hsub12 hm), h3⟩
  · intro u hu
    rcases hvis23 u hu with h1 | h2
    · exact hvis12 u h1
    · exact Or.inr h2
  · intro u hu
    rcases hsucc23 u hu with h1 | h2
    · exact hsucc12 u h1
    · exact Or.inr fun hm => h2 (hsub12 hm)

lemma enqueueLinks_nodup (V : Finset String) :
    ∀ (links q : List String), q.Nodup → (enqueueLinks V q links).Nodup := by
  intro links
  induction links with
  | nil => intro q h; exact h
  | cons l ls ih =>
    intro q h
    show (List.foldl _ (if l ∈ V ∨ l ∈ q then q else q ++ [l]) ls).Nodup
    by_cases hl : l ∈ V ∨ l ∈ q
    · rw [if_pos hl]
      exact ih q h
    · rw [if_neg hl]
      refine ih (q ++ [l]) ?_
      rw [List.nodup_append]
      refine ⟨h, List.nodup_singleton l, fun a ha hal => ?_⟩
      rw [List.mem_singleton] at hal
      subst hal
      exact hl (Or.inr ha)

lemma enqueueLinks_not_mem (V : Finset String) (v : String) (hv : v ∈ V) :
    ∀ (links q : List String), v ∉ q → v ∉ enqueueLinks V q links := by
  intro links
  induction links with
  | nil => intro q h; exact h
  | cons l ls ih =>
    intro q h
    show v ∉ List.foldl _ (if l ∈ V ∨ l ∈ q then q else q ++ [l]) ls
    by_cases hl : l ∈ V ∨ l ∈ q
    · rw [if_pos hl]
      exact ih q h
    · rw [if_neg hl]
      refine ih (q ++ [l]) fun hmem => ?_
      rcases List.mem_append.mp hmem with h1 | h2
      · exact h h1
      · rw [List.mem_singleton] at h2
        subst h2
        exact hl (Or.inl hv)

lemma crawlVisit_rel (cfg : CrawlConfig) (s : CrawlState) (u : String)
    (rest : List String) (hq : s.queue = u :: rest) (hinv : CrawlInv s) :
    CrawlRel cfg s (crawlVisit cfg s u rest) := by
  obtain ⟨hnd, hvq, hsnd, hsv⟩ := hinv
  have hrest_nd : rest.Nodup := by
    rw [hq] at hnd
    exact hnd.of_cons
  have hrest_vq : ∀ v ∈ s.visited, v ∉ rest := fun v hv hm =>
    hvq v hv (by rw [hq]; exact List.mem_cons_of_mem _ hm)
  have hskip : CrawlRel cfg s { s with queue := rest } :=
    ⟨⟨hrest_nd, hrest_vq, hsnd, hsv⟩, Finset.Subset.refl _,
     fun v hv => Or.inl hv, fun v hv => Or.inl hv, fun v hv => Or.inl hv⟩
  unfold crawlVisit
  by_cases h1 : u = "" ∨ u ∈ s.visited
  · rw [if_pos h1]
    exact hskip
  · rw [if_neg h1]
    have hu_not : u ∉ s.visited := fun hm => h1 (Or.inr hm)
    rcases hph : cfg.parseHost u with _ | host
    · exact hskip
    · dsimp only
      by_cases h2 : host ≠ cfg.rootHost
      · rw [if_pos h2]
        exact hskip
      · rw [if_neg h2]
        push_neg at h2
        have hhost : cfg.parseHost u = some cfg.rootHost := by rw [hph, h2]
        rcases hnav : cfg.navigate u with _ | links
        all_goals dsimp only
        · refine ⟨⟨hrest_nd, hrest_vq, hsnd, hsv⟩, Finset.Subset.refl _,
            ?_, fun v hv => Or.inl hv, fun v hv => Or.inl hv⟩
          intro v hv
          rcases List.mem_append.mp hv with h3 | h4
          · exact Or.inl h3
          · rw [List.mem_singleton] at h4
            subst h4
            exact Or.inr ⟨hu_not, hhost⟩
        · have hu_rest : u ∉ rest := by
            rw [hq] at hnd
            exact (List.nodup_cons.mp hnd).1
          have hvq' : ∀ v ∈ insert u s.visited,
              v ∉ enqueueLinks (insert u s.visited) rest links := by
            intro v hv
            refine enqueueLinks_not_mem _ v hv links rest ?_
            rcases Finset.mem_insert.mp hv with h3 | h4
            · subst h3
              exact hu_rest
            · exact hrest_vq v h4
          refine ⟨⟨enqueueLinks_nodup _ links rest hrest_nd, hvq', ?_, ?_⟩,
            Finset.subset_insert _ _, ?_, ?_, ?_⟩
          · rw [List.nodup_append]
            refine ⟨hsnd, List.nodup_singleton u, fun a ha hal => ?_⟩
            rw [List.mem_singleton] at hal
            subst hal
            exact hu_not (hsv _ ha)
          · intro v hv
            rcases List.mem_append.mp hv with h3 | h4
            · exact Finset.mem_insert_of_mem (hsv v h3)
            · rw [List.mem_singleton] at h4
              subst h4
              exact Finset.mem_insert_self _ _
          · intro v hv
            rcases List.mem_append.mp hv with h3 | h4
            · exact Or.inl h3
            · rw [List.mem_singleton] at h4
              subst h4
              exact Or.inr ⟨hu_not, hhost⟩
          · intro v hv
            rcases Finset.mem_insert.mp hv with h3 | h4
            · subst h3
              exact Or.inr hhost
            · exact Or.inl h4
          · intro v hv
            rcases List.mem_append.mp hv with h3 | h4
            · exact Or.inl h3
            · rw [List.mem_singleton] at h4
              subst h4
              exact Or.inr hu_not

lemma crawlStep_rel (cfg : CrawlConfig) (s s' : CrawlState)
    (h : crawlStep cfg s = some s') (hinv : CrawlInv s) :
    CrawlRel cfg s s' := by
  unfold crawlStep at h
  by_cases hcard : s.visited.card < cfg.maxPages
  · rw [if_pos hcard] at h
    rcases hq : s.queue with _ | ⟨u, rest⟩
    · rw [hq] at h
      cases h
    · rw [hq] at h
      simp only [] at h
      injection h with h
      subst h
      exact crawlVisit_rel cfg s u rest hq hinv
  · rw [if_neg hcard] at h
    cases h

lemma crawlLoop_rel (cfg : CrawlConfig) :
    ∀ (fuel : ℕ) (s : CrawlState), CrawlInv s →
      CrawlRel cfg s (crawlLoop cfg fuel s) := by
  intro fuel
  induction fuel with
  | zero => exact fun s h => crawlRel_refl cfg s h
  | succ n ih =>
    intro s hinv
    rcases hstep : crawlStep cfg s with _ | s'
    · simp only [crawlLoop, hstep]
      exact crawlRel_refl cfg s hinv
    · simp only [crawlLoop, hstep]
      have h1 := crawlStep_rel cfg s s' hstep hinv
      exact crawlRel_trans cfg s s' _ h1 (ih s' h1.1)

/-- C5 amended: a dequeued URL is skipped when it is already visited or when
its hostname differs (by exact string comparison) from the root URL's
hostname; consequently every URL ever navigated to, and every URL recorded
as visited beyond the initial set, parses to exactly the root hostname — so
no URL with a different hostname, and a fortiori none with a different
registrable domain, is ever visited. -/
theorem crawl_same_site (cfg : CrawlConfig) (fuel : ℕ) (queue0 : List String)
    (visited0 : Finset String) (hnd : queue0.Nodup)
    (hdisj : ∀ v ∈ visited0, v ∉ queue0) :
    (∀ u ∈ (crawlLoop cfg fuel ⟨queue0, visited0, [], []⟩).navTrace,
      cfg.parseHost u = some cfg.rootHost) ∧
    (∀ u ∈ (crawlLoop cfg fuel ⟨queue0, visited0, [], []⟩).visited,
      u ∈ visited0 ∨ cfg.parseHost u = some cfg.rootHost) := by
  have h0 : CrawlInv ⟨queue0, visited0, [], []⟩ :=
    ⟨hnd, hdisj, List.nodup_nil, fun u hu => absurd hu (List.not_mem_nil u)⟩
  obtain ⟨_, _, hnav, hvis, _⟩ := crawlLoop_rel cfg fuel _ h0
  refine ⟨fun u hu => ?_, hvis⟩
  rcases hnav u hu with h1 | ⟨_, h3⟩
  · exact absurd h1 (List.not_mem_nil u)
  · exact h3

/-- A concrete crawl environment: the scan starts at `www.example.com` and
the entry page links to a page on the `ads.example.com` subdomain of the
same registrable domain. -/
def subdomainCfg : CrawlConfig :=
  { maxPages := 10,
    rootHost := "www.example.com",
    parseHost := fun u =>
      if u = "https://www.example.com/" then some "www.example.com"
      else if u = "https://ads.example.com/" then some "ads.example.com"
      else none,
    navigate := fun u =>
      if u = "https://www.example.com/" then some ["https://ads.example.com/"]
      else some [] }

/-- C5 counterexample: the crawl's domain check compares full hostnames, not
registrable domains, so a URL on a different subdomain of the same
registrable domain as the root IS excluded: with budget 10 and the ads URL
on the frontier, it is dequeued but never navigated to and never visited,
although its registrable domain equals the root's. -/
theorem subdomain_excluded_counterexample :
    registrableDomain "ads.example.com" =
      registrableDomain "www.example.com" ∧
    (crawlLoop subdomainCfg 5
        ⟨["https://www.example.com/"], ∅, [], []⟩).visited =
      {"https://www.example.com/"} ∧
    "https://ads.example.com/" ∉
      (crawlLoop subdomainCfg 5
        ⟨["https://www.example.com/"], ∅, [], []⟩).navTrace := by
  refine ⟨by decide, by decide, by decide⟩

theorem crawl_same_site_witness :
    (∀ u ∈ (crawlLoop subdomainCfg 5
        ⟨["https://www.example.com/"], ∅, [], []⟩).navTrace,
      subdomainCfg.parseHost u = some subdomainCfg.rootHost) ∧
    (∀ u ∈ (crawlLoop subdomainCfg 5
        ⟨["https://www.example.com/"], ∅, [], []⟩).visited,
      u ∈ (∅ : Finset String) ∨
        subdomainCfg.parseHost u = some subdomainCfg.rootHost) :=
  crawl_same_site subdomainCfg 5 ["https://www.example.com/"] ∅
    (by decide) (by simp)

/-- C6: Frontier dedup.  For every crawl run whose initial frontier has no
duplicates and shares no URL with the initial visited set: no URL is
successfully visited twice (the successful-navigation history has no
duplicates), a URL already in the visited set is never navigated to again,
it is never re-enqueued onto the frontier (the final frontier excludes it),
and the frontier never acquires duplicates. -/
theorem frontier_dedup (cfg : CrawlConfig) (fuel : ℕ) (queue0 : List String)
    (visited0 : Finset String) (hnd : queue0.Nodup)
    (hdisj : ∀ v ∈ visited0, v ∉ queue0) :
    (crawlLoop cfg fuel ⟨queue0, visited0, [], []⟩).succTrace.Nodup ∧
    (∀ u ∈ visited0,
      u ∉ (crawlLoop cfg fuel ⟨queue0, visited0, [], []⟩).navTrace) ∧
    (∀ u ∈ visited0,
      u ∉ (crawlLoop cfg fuel ⟨queue0, visited0, [], []⟩).queue) ∧
    (crawlLoop cfg fuel ⟨queue0, visited0, [], []⟩).queue.Nodup := by
  have h0 : CrawlInv ⟨queue0, visited0, [], []⟩ :=
    ⟨hnd, hdisj, List.nodup_nil, fun u hu => absurd hu (List.not_mem_nil u)⟩
  obtain ⟨⟨hq, hvq, hsnd, _⟩, hsub, hnav, _, _⟩ := crawlLoop_rel cfg fuel _ h0
  refine ⟨hsnd, ?_, ?_, hq⟩
  · intro u hu hmem
    rcases hnav u hmem with h1 | ⟨h2, _⟩
    · exact absurd h1 (List.not_mem_nil u)
    · exact h2 hu
  · intro u hu
    exact hvq u (hsub hu)

theorem frontier_dedup_witness :
    (crawlLoop subdomainCfg 5
      ⟨["https://ads.example.com/"], {"https://www.example.com/"}, [],
        []⟩).succTrace.Nodup ∧
    (∀ u ∈ ({"https://www.example.com/"} : Finset String),
      u ∉ (crawlLoop subdomainCfg 5
        ⟨["https://ads.example.com/"], {"https://www.example.com/"}, [],
          []⟩).navTrace) ∧
    (∀ u ∈ ({"https://www.example.com/"} : Finset String),
      u ∉ (crawlLoop subdomainCfg 5
        ⟨["https://ads.example.com/"], {"https://www.example.com/"}, [],
          []⟩).queue) ∧
    (crawlLoop subdomainCfg 5
      ⟨["https://ads.example.com/"], {"https://www.example.com/"}, [],
        []⟩).queue.Nodup :=
  frontier_dedup subdomainCfg 5 ["https://ads.example.com/"]
    {"https://www.example.com/"} (by decide) (by decide)

/-- JavaScript `s.startsWith(pre)`. -/
def jsStartsWith (s pre : String) : Bool :=
  List.isPrefixOf pre.data s.data

/-- JavaScript `s.endsWith(suf)`. -/
def jsEndsWith (s suf : String) : Bool :=
  List.isSuffixOf suf.data s.data

/-- JavaScript `hostname.replace(/^www\., '')`: strip one leading `www.`. -/
def stripWww (h : String) : String :=
  if jsStartsWith h "www." then String.mk (h.data.drop 4) else h

/-- The party computation of the normal report (`finalEnrichedCookies` in
server1, `uniqueCookies` in server2): dot-prefix the cookie's domain, build
the root domain as a dot followed by the scanned hostname with a leading
`www.` stripped, and compare by suffix. -/
def cookieParty (cookieDomain scannedHostname : String) : String :=
  let domain :=
    if jsStartsWith cookieDomain "." then cookieDomain
    else "." ++ cookieDomain
  let rootDomain := "." ++ stripWww scannedHostname
  if jsEndsWith domain rootDomain then "First" else "Third"

/-- Modelled from the spec: the party rule as the spec words it — the
cookie's (dot-prefixed) domain compared by suffix against the scanned
site's registrable domain.  The code compares against the www-stripped
hostname instead; this definition exists to be compared with
`cookieParty`. -/
def specCookieParty (cookieDomain scannedHostname : String) : String :=
  let domain :=
    if jsStartsWith cookieDomain "." then cookieDomain
    else "." ++ cookieDomain
  if jsEndsWith domain ("." ++ registrableDomain scannedHostname) then "First"
  else "Third"

/-- C7 counterexample: the normal report's party is not computed against the
registrable domain.  Scanning at hostname `ads.example.com`, a cookie whose
domain is exactly the site's registrable domain `example.com` is reported
as Third party, while a comparison against the registrable domain makes it
First party. -/
theorem cookie_party_counterexample :
    cookieParty "example.com" "ads.example.com" = "Third" ∧
    registrableDomain "ads.example.com" = "example.com" ∧
    specCookieParty "example.com" "ads.example.com" = "First" := by
  refine ⟨by decide, by decide, by decide⟩

/-- C7 amended: party is computed by suffix-comparing the dot-prefixed
cookie domain against a dot followed by the scanned hostname with a leading
`www.` stripped.  Whenever the www-stripped hostname coincides with the
registrable domain (as it does at `www.example.com`), this agrees with the
spec's registrable-domain comparison; and the two concrete cases hold:
domain `.example.com` scanned at `www.example.com` is First party, domain
`.ads.example-cdn.net` there is Third party. -/
theorem cookie_party_root_comparison (d h : String)
    (hco : stripWww h = registrableDomain h) :
    cookieParty d h = specCookieParty d h ∧
    cookieParty ".example.com" "www.example.com" = "First" ∧
    cookieParty ".ads.example-cdn.net" "www.example.com" = "Third" := by
  refine ⟨?_, by decide, by decide⟩
  simp only [cookieParty, specCookieParty, hco]

theorem cookie_party_root_comparison_witness :
    cookieParty "sessionid" "www.example.com" =
      specCookieParty "sessionid" "www.example.com" ∧
    cookieParty ".example.com" "www.example.com" = "First" ∧
    cookieParty ".ads.example-cdn.net" "www.example.com" = "Third" :=
  cookie_party_root_comparison "sessionid" "www.example.com" (by decide)

/-- The party computation of server1's fallback report, produced when every
classifier batch has failed:
`party: c.data.domain.startsWith('.') ? 'Third' : 'First'`. -/
def fallbackParty (cookieDomain : String) : String :=
  if jsStartsWith cookieDomain "." then "Third" else "First"

/-- C10: in the fallback report a cookie is Third party exactly when its
stored domain string starts with a dot, and First party otherwise — a
different rule from the normal report's suffix comparison, so a first-party
cookie stored with a leading dot (domain `.example.com` scanned at
`www.example.com`) is Third in the fallback report but First in the normal
report. -/
theorem fallback_party_rule (d : String) :
    (fallbackParty d = "Third" ↔ jsStartsWith d "." = true) ∧
    fallbackParty ".example.com" = "Third" ∧
    cookieParty ".example.com" "www.example.com" = "First" ∧
    fallbackParty ".example.com" ≠
      cookieParty ".example.com" "www.example.com" := by
  refine ⟨?_, by decide, by decide, by decide⟩
  cases hb : jsStartsWith d "."
  · unfold fallbackParty
    rw [hb]
    decide
  · unfold fallbackParty
    rw [hb]
    decide

/-- Server1's static tracker-domain reference table. -/
def knownTrackerDomains : List String :=
  ["google-analytics.com", "googletagmanager.com", "analytics.google.com",
   "doubleclick.net", "googleadservices.com", "googlesyndication.com",
   "connect.facebook.net", "facebook.com/tr", "c.clarity.ms", "clarity.ms",
   "hotjar.com", "hotjar.io", "hjid.hotjar.com", "hubspot.com",
   "hs-analytics.net", "track.hubspot.com", "linkedin.com/px",
   "ads.linkedin.com", "twitter.com/i/ads", "ads-twitter.com",
   "bing.com/ads", "semrush.com", "optimizely.com", "vwo.com",
   "crazyegg.com", "taboola.com", "outbrain.com", "criteo.com",
   "addthis.com", "sharethis.com", "tiqcdn.com"]

/-- Whether `sub` occurs as a contiguous sublist of the second argument. -/
def charsInfixOf (sub : List Char) : List Char → Bool
  | [] => sub.isEmpty
  | c :: cs => List.isPrefixOf sub (c :: cs) || charsInfixOf sub cs

/-- JavaScript `s.includes(sub)`: substring containment. -/
def jsIncludes (s sub : String) : Bool :=
  charsInfixOf sub.data s.data

/-- JavaScript `Set.add` on an insertion-ordered string set. -/
def setAdd (l : List String) (x : String) : List String :=
  if x ∈ l then l else l ++ [x]

/-- Server1's request listener in `collectPageData`: when the request URL
contains a known tracker domain, add `domain|url` to the tracker set. -/
def requestListener1 (acc : List String) (reqUrl : String) : List String :=
  match knownTrackerDomains.find? (fun d => jsIncludes reqUrl d) with
  | some d => setAdd acc (d ++ "|" ++ reqUrl)
  | none => acc

/-- Server1's `collectPageData`, as a function of what the page run
delivers: the request URLs the listener saw during the reload cycle; the
cookie jar when the reload-and-read steps succeed (`some`), or `none` when
one of them throws; and the result of the catch block's retried
`page.cookies().catch(() => [])`.  The try and the catch both return the
trackers captured so far; the catch substitutes the retried cookie read. -/
def collectPageDataServer1 (requests : List String)
    (reloadCookies : Option (List PCookie)) (catchCookies : List PCookie) :
    List PCookie × List String :=
  let trackerSet := requests.foldl requestListener1 []
  match reloadCookies with
  | some cs => (cs, trackerSet)
  | none => (catchCookies, trackerSet)

/-- An off-site network request as parsed by server2's request listener. -/
structure NetRequestObs where
  url : String
  hostname : String
  protocol : String
deriving DecidableEq, Repr

/-- A localStorage / sessionStorage entry read in page context. -/
structure StorageItem where
  origin : String
  key : String
  value : String
  pageUrl : String
deriving DecidableEq, Repr

/-- The value server2's `collectPageData` resolves with. -/
structure CollectResult2 where
  cookies : List PCookie
  networkRequests : List NetRequestObs
  localStorageItems : List StorageItem
  gcmDetected : Bool
  gcmStatus : String
deriving DecidableEq, Repr

/-- Server2's request listener: an unparsable request URL is ignored, and a
parsed one is pushed when its hostname differs from the root hostname and
its protocol is http or https. -/
def requestListener2 (rootHostname : String) (acc : List NetRequestObs)
    (r : Option NetRequestObs) : List NetRequestObs :=
  match r with
  | none => acc
  | some req =>
    if req.hostname ≠ rootHostname ∧
        (req.protocol = "http:" ∨ req.protocol = "https:") then
      acc ++ [req]
    else acc

/-- Server2's `collectPageData`, as a function of what the page run
delivers: the requests the listener saw during the reload cycle, and the
cookie jar, storage items and consent-mode status when the
reload-and-read steps succeed (`none` when one of them throws).  The catch
block returns fixed empty collections with gcm status `Error`. -/
def collectPageDataServer2 (rootHostname : String)
    (requests : List (Option NetRequestObs))
    (reloadOutcome : Option (List PCookie × List StorageItem × Bool × String)) :
    CollectResult2 :=
  let nr := requests.foldl (requestListener2 rootHostname) []
  match reloadOutcome with
  | some (cs, st, det, stat) => ⟨cs, nr, st, det, stat⟩
  | none => ⟨[], [], [], false, "Error"⟩

/-- A request the listener captures before the reload step fails. -/
def trackerReq : NetRequestObs :=
  { url := "https://tracker.example.net/p.js",
    hostname := "tracker.example.net", protocol := "https:" }

/-- C9 counterexample: in the server2 variant the catch path discards the
partial data.  A network request captured by the listener before the
failure (first conjunct shows the listener had recorded it) is absent from
the returned collections — the catch returns fixed empty lists. -/
theorem collect_discards_partial_counterexample :
    requestListener2 "www.example.com" [] (some trackerReq) = [trackerReq] ∧
    (collectPageDataServer2 "www.example.com" [some trackerReq]
        none).networkRequests = [] ∧
    trackerReq ∉ (collectPageDataServer2 "www.example.com" [some trackerReq]
        none).networkRequests := by
  refine ⟨by decide, by decide, by decide⟩

lemma setAdd_mem_self (l : List String) (x : String) : x ∈ setAdd l x := by
  unfold setAdd
  by_cases h : x ∈ l
  · rw [if_pos h]
    exact h
  · rw [if_neg h]
    exact List.mem_append_right _ (List.mem_singleton_self x)

lemma setAdd_mem_mono (l : List String) (x y : String) (h : y ∈ l) :
    y ∈ setAdd l x := by
  unfold setAdd
  by_cases hx : x ∈ l
  · rw [if_pos hx]
    exact h
  · rw [if_neg hx]
    exact List.mem_append_left _ h

lemma requestListener1_mono (acc : List String) (r y : String) (h : y ∈ acc) :
    y ∈ requestListener1 acc r := by
  unfold requestListener1
  rcases h0 : knownTrackerDomains.find? (fun d => jsIncludes r d) with _ | d
  · exact h
  · exact setAdd_mem_mono _ _ _ h

lemma foldl_listener1_mono (y : String) :
    ∀ (rs acc : List String), y ∈ acc → y ∈ rs.foldl requestListener1 acc := by
  intro rs
  induction rs with
  | nil => intro acc h; exact h
  | cons r rest ih =>
    intro acc h
    rw [List.foldl_cons]
    exact ih _ (requestListener1_mono acc r y h)

lemma foldl_listener1_captures (reqUrl d : String)
    (hd : knownTrackerDomains.find? (fun x => jsIncludes reqUrl x) = some d) :
    ∀ (rs acc : List String), reqUrl ∈ rs →
      (d ++ "|" ++ reqUrl) ∈ rs.foldl requestListener1 acc := by
  intro rs
  induction rs with
  | nil => intro acc h; cases h
  | cons r rest ih =>
    intro acc h
    rw [List.foldl_cons]
    rcases List.mem_cons.mp h with h1 | h2
    · subst h1
      refine foldl_listener1_mono _ rest _ ?_
      unfold requestListener1
      rw [hd]
      exact setAdd_mem_self _ _
    · exact ih _ h2

/-- C9 amended: neither collector variant propagates a failure (both are
total, returning through the catch path).  In the server1 variant the claim
holds in full: when the reload or read step throws, the returned value
still contains every tracker entry captured before the failure, together
with the catch block's retried cookie read.  (In the server2 variant the
catch returns empty collections, discarding the captured requests.) -/
theorem collect_partial_server1 (requests : List String)
    (catchCookies : List PCookie) (reqUrl d : String)
    (hmem : reqUrl ∈ requests)
    (hd : knownTrackerDomains.find? (fun x => jsIncludes reqUrl x) = some d) :
    (d ++ "|" ++ reqUrl) ∈
      (collectPageDataServer1 requests none catchCookies).2 ∧
    (collectPageDataServer1 requests none catchCookies).1 = catchCookies :=
  ⟨foldl_listener1_captures reqUrl d hd requests [] hmem, rfl⟩

theorem collect_partial_server1_witness :
    ("google-analytics.com" ++ "|" ++
        "https://www.google-analytics.com/collect") ∈
      (collectPageDataServer1 ["https://www.google-analytics.com/collect"]
        none []).2 ∧
    (collectPageDataServer1 ["https://www.google-analytics.com/collect"]
        none []).1 = [] :=
  collect_partial_server1 ["https://www.google-analytics.com/collect"] []
    "https://www.google-analytics.com/collect" "google-analytics.com"
    (by decide) (by decide)

/-- C8: Expiry bucketing.  `getHumanReadableExpiry` is a total function on
cookies such that a session cookie (session flag set, or `expires = -1`)
maps to `Session`; a cookie expiring less than one hour from now maps to a
minutes bucket distinct from `Session` (and `now + 45min` maps exactly to
`45 minutes`); less than one day maps to hours; less than 30 days to days;
less than 365 days to months; and anything longer to fractional years. -/
theorem expiry_bucketing (c : PCookie) (nowMs : ℚ) :
    (c.session = true ∨ c.expires = -1 →
      getHumanReadableExpiry c nowMs = "Session") ∧
    (c.session = false → c.expires ≠ -1 → diffSecondsOf c nowMs = 2700 →
      getHumanReadableExpiry c nowMs = "45 minutes") ∧
    (c.session = false → c.expires ≠ -1 → 0 ≤ diffSecondsOf c nowMs →
      diffSecondsOf c nowMs < 3600 →
      (∃ n : ℤ, getHumanReadableExpiry c nowMs = toString n ++ " minutes") ∧
      getHumanReadableExpiry c nowMs ≠ "Session") ∧
    (c.session = false → c.expires ≠ -1 → 3600 ≤ diffSecondsOf c nowMs →
      diffSecondsOf c nowMs < 86400 →
      ∃ n : ℤ, getHumanReadableExpiry c nowMs = toString n ++ " hours") ∧
    (c.session = false → c.expires ≠ -1 → 86400 ≤ diffSecondsOf c nowMs →
      diffSecondsOf c nowMs < 86400 * 30 →
      ∃ n : ℤ, getHumanReadableExpiry c nowMs = toString n ++ " days") ∧
    (c.session = false → c.expires ≠ -1 →
      86400 * 30 ≤ diffSecondsOf c nowMs →
      diffSecondsOf c nowMs < 86400 * 365 →
      ∃ n : ℤ, getHumanReadableExpiry c nowMs = toString n ++ " months") ∧
    (c.session = false → c.expires ≠ -1 →
      86400 * 365 ≤ diffSecondsOf c nowMs →
      ∃ t : ℤ, getHumanReadableExpiry c nowMs =
        renderTenths t ++ " year" ++ (if 10 < t then "s" else "")) := by
  refine ⟨?_, ?_, ?_, ?_, ?_, ?_, ?_⟩
  · intro h
    simp only [getHumanReadableExpiry]
    rw [if_pos h]
  · intro hs hne h
    have hcond : ¬(c.session = true ∨ c.expires = -1) := by
      rintro (h1 | h2)
      · rw [hs] at h1
        cases h1
      · exact hne h2
    simp only [getHumanReadableExpiry]
    rw [if_neg hcond, h]
    rw [if_neg (by norm_num : ¬ (2700 : ℚ) < 0),
      if_pos (by norm_num : (2700 : ℚ) < 3600)]
    have hround : jsRound ((2700 : ℚ) / 60) = 45 := by
      unfold jsRound
      rw [Int.floor_eq_iff]
      constructor
      · norm_num
      · norm_num
    rw [hround]
    rfl
  · intro hs hne h0 h1
    have hcond : ¬(c.session = true ∨ c.expires = -1) := by
      rintro (ha | hb)
      · rw [hs] at ha
        cases ha
      · exact hne hb
    have hn0 : ¬ diffSecondsOf c nowMs < 0 := not_lt.mpr h0
    simp only [getHumanReadableExpiry]
    rw [if_neg hcond, if_neg hn0, if_pos h1]
    refine ⟨⟨jsRound (diffSecondsOf c nowMs / 60), rfl⟩, ?_⟩
    intro hcontra
    have hlen := congrArg String.length hcontra
    rw [String.length_append] at hlen
    have h8 : (" minutes").length = 8 := rfl
    have h7 : ("Session").length = 7 := rfl
    omega
  · intro hs hne h0 h1
    have hcond : ¬(c.session = true ∨ c.expires = -1) := by
      rintro (ha | hb)
      · rw [hs] at ha
        cases ha
      · exact hne hb
    have hn0 : ¬ diffSecondsOf c nowMs < 0 :=
      not_lt.mpr (le_trans (by norm_num) h0)
    have hn1 : ¬ diffSecondsOf c nowMs < 3600 := not_lt.mpr h0
    simp only [getHumanReadableExpiry]
    rw [if_neg hcond, if_neg hn0, if_neg hn1, if_pos h1]
    exact ⟨jsRound (diffSecondsOf c nowMs / 3600), rfl⟩
  · intro hs hne h0 h1
    have hcond : ¬(c.session = true ∨ c.expires = -1) := by
      rintro (ha | hb)
      · rw [hs] at ha
        cases ha
      · exact hne hb
    have hn0 : ¬ diffSecondsOf c nowMs < 0 :=
      not_lt.mpr (le_trans (by norm_num) h0)
    have hn1 : ¬ diffSecondsOf c nowMs < 3600 :=
      not_lt.mpr (le_trans (by norm_num) h0)
    have hn2 : ¬ diffSecondsOf c nowMs < 86400 := not_lt.mpr h0
    simp only [getHumanReadableExpiry]
    rw [if_neg hcond, if_neg hn0, if_neg hn1, if_neg hn2, if_pos h1]
    exact ⟨jsRound (diffSecondsOf c nowMs / 86400), rfl⟩
  · intro hs hne h0 h1
    have hcond : ¬(c.session = true ∨ c.expires = -1) := by
      rintro (ha | hb)
      · rw [hs] at ha
        cases ha
      · exact hne hb
    have hn0 : ¬ diffSecondsOf c nowMs < 0 :=
      not_lt.mpr (le_trans (by norm_num) h0)
    have hn1 : ¬ diffSecondsOf c nowMs < 3600 :=
      not_lt.mpr (le_trans (by norm_num) h0)
    have hn2 : ¬ diffSecondsOf c nowMs < 86400 :=
      not_lt.mpr (le_trans (by norm_num) h0)
    have hn3 : ¬ diffSecondsOf c nowMs < 86400 * 30 := not_lt.mpr h0
    simp only [getHumanReadableExpiry]
    rw [if_neg hcond, if_neg hn0, if_neg hn1, if_neg hn2, if_neg hn3,
      if_pos h1]
    exact ⟨jsRound (diffSecondsOf c nowMs / (86400 * 30)), rfl⟩
  · intro hs hne h0
    have hcond : ¬(c.session = true ∨ c.expires = -1) := by
      rintro (ha | hb)
      · rw [hs] at ha
        cases ha
      · exact hne hb
    have hn0 : ¬ diffSecondsOf c nowMs < 0 :=
      not_lt.mpr (le_trans (by norm_num) h0)
    have hn1 : ¬ diffSecondsOf c nowMs < 3600 :=
      not_lt.mpr (le_trans (by norm_num) h0)
    have hn2 : ¬ diffSecondsOf c nowMs < 86400 :=
      not_lt.mpr (le_trans (by norm_num) h0)
    have hn3 : ¬ diffSecondsOf c nowMs < 86400 * 30 :=
      not_lt.mpr (le_trans (by norm_num) h0)
    have hn4 : ¬ diffSecondsOf c nowMs < 86400 * 365 := not_lt.mpr h0
    simp only [getHumanReadableExpiry]
    rw [if_neg hcond, if_neg hn0, if_neg hn1, if_neg hn2, if_neg hn3,
      if_neg hn4]
    exact ⟨jsRound (10 * (diffSecondsOf c nowMs / (86400 * 365))), rfl⟩

/-- A cookie expiring 45 minutes after the epoch instant `nowMs = 0`. -/
def cookie45m : PCookie :=
  { name := "pref", domain := "example.com", path := "/", expires := 2700,
    session := false, httpOnly := false, secure := false }

/-- A session cookie. -/
def sessionCookie : PCookie :=
  { name := "sid", domain := "example.com", path := "/", expires := -1,
    session := true, httpOnly := true, secure := true }

theorem expiry_bucketing_witness :
    getHumanReadableExpiry cookie45m 0 = "45 minutes" ∧
    getHumanReadableExpiry sessionCookie 0 = "Session" :=
  ⟨(expiry_bucketing cookie45m 0).2.1 rfl (by norm_num [cookie45m])
      (by norm_num [diffSecondsOf, cookie45m]),
   (expiry_bucketing sessionCookie 0).1 (Or.inl rfl)⟩

end CookieScan
